import Mathlib

/-!
Verification of the Cms repository (school-management backend).

Shallow embedding of:
  * `apps/acounts/models.py` — the `User` model: role choices, lazy
    identifier generation on first save (`generate_employee_id`,
    `generate_student_id`, `save`), and the role helper predicates.
  * `apps/common/models.py` — the abstract base models: timestamp /
    audit / soft-delete fields, `soft_delete()` / `restore()`, and the
    `ActiveManager` / `DeletedManager` query managers.

The database is modelled as a list of rows; `timezone.now()` is an
explicit `now : Nat` argument; Python's `random.randint(10000, 99999)`
is modelled by an explicit stream of draws (a `List Nat`), each draw
mapped into the inclusive range, so the unbounded retry loop becomes a
structurally recursive search over the stream that returns `none` when
the finite stream of draws is exhausted.
-/

namespace Cms

/-- Row of the `User` model from `apps/acounts/models.py`.  `pk` is the
primary key (`none` before the first save).  `User` inherits
`AbstractUser` and `BaseModel`; `BaseModel` contributes the timestamp,
audit and soft-delete columns (`created_at`, `updated_at`, `created_by`,
`updated_by`, `is_deleted`, `deleted_at`). -/
structure User where
  pk : Option Nat
  username : String
  role : String
  is_super : Bool
  employee_id : Option String
  student_id : Option String
  created_at : Option Nat
  updated_at : Option Nat
  created_by : Option Nat
  updated_by : Option Nat
  is_deleted : Bool
  deleted_at : Option Nat
deriving DecidableEq

/-- Declared role choices `User.ROLE_CHOICES` (value, human label). -/
def ROLE_CHOICES : List (String × String) :=
  [("superadmin", "Superadmin"), ("admin", "Admin"),
   ("teacher", "Teacher"), ("student", "Student")]

/-- Python truthiness test used by `save`: `not self.employee_id` is
true when the field is `NULL` or the empty string. -/
def blankOrNull : Option String → Bool
  | none => true
  | some s => s.isEmpty

/-- Model of `random.randint(lo, hi)` (inclusive bounds) driven by one
draw `r` from the random stream. -/
def randint (lo hi r : Nat) : Nat := lo + r % (hi + 1 - lo)

/-- The `while True` loop of `User.generate_employee_id`: roll the
marker `EMP` followed by `random.randint(10000, 99999)`, return it
unless some existing row already holds that `employee_id`, otherwise
re-roll.  The stream of draws doubles as fuel: `none` means every
supplied draw collided. -/
def User.generate_employee_id (db : List User) : List Nat → Option String
  | [] => none
  | r :: rs =>
    let emp_id := "EMP" ++ Nat.repr (randint 10000 99999 r)
    if db.any (fun u => u.employee_id == some emp_id) then
      User.generate_employee_id db rs
    else
      some emp_id

/-- The `while True` loop of `User.generate_student_id`, identical but
with the `STD` marker and the `student_id` column. -/
def User.generate_student_id (db : List User) : List Nat → Option String
  | [] => none
  | r :: rs =>
    let std_id := "STD" ++ Nat.repr (randint 10000 99999 r)
    if db.any (fun u => u.student_id == some std_id) then
      User.generate_student_id db rs
    else
      some std_id

/-- `User.save`: for a new user (`pk` unset) with an employee role and a
blank `employee_id`, generate one; else, for a new student with a blank
`student_id`, generate one.  Then `super().save()`: an insert (assigning
`newPk`) for a new row, an update in place for an existing row.  Returns
`none` only when the modelled random stream is exhausted (the Python
loop would still be re-rolling). -/
def User.save (u : User) (db : List User) (rolls : List Nat) (newPk : Nat) :
    Option (User × List User) :=
  match u.pk with
  | some _ => some (u, db.map fun v => if v.pk = u.pk then u else v)
  | none =>
    let u1? : Option User :=
      if u.role ∈ ["superadmin", "admin", "teacher"] ∧ blankOrNull u.employee_id then
        (User.generate_employee_id db rolls).map fun eid =>
          { u with employee_id := some eid }
      else if u.role = "student" ∧ blankOrNull u.student_id then
        (User.generate_student_id db rolls).map fun sid =>
          { u with student_id := some sid }
      else
        some u
    u1?.map fun u1 =>
      let u2 := { u1 with pk := some newPk }
      (u2, db ++ [u2])

/-- `User.is_superuser_role`: compares against the string `"superuser"`. -/
def User.is_superuser_role (u : User) : Bool := u.role == "superuser"

/-- `User.is_admin_role`. -/
def User.is_admin_role (u : User) : Bool := u.role == "admin"

/-- `User.is_teacher_role`. -/
def User.is_teacher_role (u : User) : Bool := u.role == "teacher"

/-- `User.is_student_role`. -/
def User.is_student_role (u : User) : Bool := u.role == "student"

/-- `soft_delete()` as inherited by `User` through `BaseModel`
(which includes `SoftDeleteModel`): set the flag pair, then persist via
`self.save()`. -/
def User.soft_delete (u : User) (now : Nat) (db : List User)
    (rolls : List Nat) (newPk : Nat) : Option (User × List User) :=
  User.save { u with is_deleted := true, deleted_at := some now } db rolls newPk

/-- `restore()` as inherited by `User` through `BaseModel`. -/
def User.restore (u : User) (db : List User)
    (rolls : List Nat) (newPk : Nat) : Option (User × List User) :=
  User.save { u with is_deleted := false, deleted_at := none } db rolls newPk

/-- Row of an arbitrary concrete model inheriting `BaseModel`
(timestamps, audit references, and the `SoftDeleteModel` flag pair).
`fields : α` stands for the concrete model's own columns. -/
structure SDRecord (α : Type) where
  pk : Nat
  fields : α
  created_at : Option Nat
  updated_at : Option Nat
  created_by : Option Nat
  updated_by : Option Nat
  is_deleted : Bool
  deleted_at : Option Nat
deriving DecidableEq

/-- `Model.save()` for a persisted row: the `updated_at` column is
`auto_now`, so it is refreshed, and the row is written back over every
stored row with the same primary key. -/
def SDRecord.save {α : Type} (r : SDRecord α) (now : Nat)
    (db : List (SDRecord α)) : SDRecord α × List (SDRecord α) :=
  let r' := { r with updated_at := some now }
  (r', db.map fun v => if v.pk = r'.pk then r' else v)

/-- `SoftDeleteModel.soft_delete`: mark the record as deleted without
removing it from the database, then `self.save()`. -/
def SDRecord.soft_delete {α : Type} (r : SDRecord α) (now : Nat)
    (db : List (SDRecord α)) : SDRecord α × List (SDRecord α) :=
  SDRecord.save { r with is_deleted := true, deleted_at := some now } now db

/-- `SoftDeleteModel.restore`: restore a soft-deleted record, then
`self.save()`. -/
def SDRecord.restore {α : Type} (r : SDRecord α) (now : Nat)
    (db : List (SDRecord α)) : SDRecord α × List (SDRecord α) :=
  SDRecord.save { r with is_deleted := false, deleted_at := none } now db

/-- `ActiveManager.get_queryset`: `filter(is_deleted=False)`. -/
def ActiveManager.get_queryset {α : Type} (db : List (SDRecord α)) :
    List (SDRecord α) :=
  db.filter fun r => r.is_deleted == false

/-- `DeletedManager.get_queryset`: `filter(is_deleted=True)`. -/
def DeletedManager.get_queryset {α : Type} (db : List (SDRecord α)) :
    List (SDRecord α) :=
  db.filter fun r => r.is_deleted == true

/-- Sequential creation of users: save each in turn against the growing
database (fresh primary key taken as the current table size), collecting
the saved rows. -/
def createUsers (db : List User) : List (User × List Nat) →
    Option (List User × List User)
  | [] => some ([], db)
  | (u, rolls) :: rest =>
    match User.save u db rolls db.length with
    | none => none
    | some (u', db') =>
      match createUsers db' rest with
      | none => none
      | some (us, dbF) => some (u' :: us, dbF)

/-- The three roles whose users receive an `employee_id`. -/
def empRoles : List String := ["superadmin", "admin", "teacher"]

/-- Sample persisted row used to instantiate theorems about the
soft-delete mixin at a concrete input. -/
def sampleRec : SDRecord Nat :=
  { pk := 1, fields := 42, created_at := some 0, updated_at := some 0,
    created_by := none, updated_by := none, is_deleted := false,
    deleted_at := none }

/-- Sample unsaved admin user (no primary key, blank identifiers). -/
def aliceNew : User :=
  { pk := none, username := "alice", role := "admin", is_super := false,
    employee_id := none, student_id := none, created_at := none,
    updated_at := none, created_by := none, updated_by := none,
    is_deleted := false, deleted_at := none }

/-- The row `aliceNew` becomes after `save` against an empty table with
the single random draw `3` (so the suffix is `10000 + 3 % 90000`). -/
def aliceSaved : User :=
  { pk := some 1, username := "alice", role := "admin", is_super := false,
    employee_id := some "EMP10003", student_id := none, created_at := none,
    updated_at := none, created_by := none, updated_by := none,
    is_deleted := false, deleted_at := none }

/-- Sample unsaved student user. -/
def bobNew : User :=
  { pk := none, username := "bob", role := "student", is_super := false,
    employee_id := none, student_id := none, created_at := none,
    updated_at := none, created_by := none, updated_by := none,
    is_deleted := false, deleted_at := none }

/-- The row `bobNew` becomes after `save` against an empty table with
the single random draw `3`. -/
def bobSaved : User :=
  { pk := some 1, username := "bob", role := "student", is_super := false,
    employee_id := none, student_id := some "STD10003", created_at := none,
    updated_at := none, created_by := none, updated_by := none,
    is_deleted := false, deleted_at := none }

/-- Sample persisted admin user (primary key set, identifier assigned). -/
def aliceStored : User :=
  { pk := some 1, username := "alice", role := "admin", is_super := false,
    employee_id := some "EMP10003", student_id := none, created_at := some 0,
    updated_at := some 0, created_by := none, updated_by := none,
    is_deleted := false, deleted_at := none }

/-- If some stored row shares the saved record's primary key, the saved
instance is found in the table produced by `save`. -/
lemma SDRecord.save_mem {α : Type} (r : SDRecord α) (now : Nat)
    (db : List (SDRecord α)) (v : SDRecord α) (hv : v ∈ db)
    (hpk : v.pk = r.pk) :
    (SDRecord.save r now db).1 ∈ (SDRecord.save r now db).2 := by
  simp only [SDRecord.save]
  exact List.mem_map.mpr ⟨v, hv, by simp [hpk]⟩

/-- C3: for every record inheriting the soft-delete mixin and every
starting state, `soft_delete()` followed by `restore()` leaves
`is_deleted = false` and `deleted_at = null`. -/
theorem C3_soft_delete_restore_round_trip {α : Type} :
    ∀ (r : SDRecord α) (t1 t2 : Nat) (db1 db2 : List (SDRecord α)),
    (((r.soft_delete t1 db1).1).restore t2 db2).1.is_deleted = false ∧
    (((r.soft_delete t1 db1).1).restore t2 db2).1.deleted_at = none := by
  intro r t1 t2 db1 db2
  exact ⟨rfl, rfl⟩

/-- C4: the active-only manager returns exactly the rows with
`is_deleted = false`, the deleted-only manager exactly those with
`is_deleted = true`, and together they partition the table. -/
theorem C4_manager_partition {α : Type} :
    ∀ (db : List (SDRecord α)),
    (∀ r, r ∈ ActiveManager.get_queryset db ↔ r ∈ db ∧ r.is_deleted = false) ∧
    (∀ r, r ∈ DeletedManager.get_queryset db ↔ r ∈ db ∧ r.is_deleted = true) ∧
    (ActiveManager.get_queryset db).length +
      (DeletedManager.get_queryset db).length = db.length := by
  intro db
  refine ⟨?_, ?_, ?_⟩
  · intro r
    simp [ActiveManager.get_queryset, List.mem_filter]
  · intro r
    simp [DeletedManager.get_queryset, List.mem_filter]
  · induction db with
    | nil => rfl
    | cons h t ih =>
      by_cases hd : h.is_deleted <;>
        simp [ActiveManager.get_queryset, DeletedManager.get_queryset,
          List.filter, hd] at ih ⊢ <;> omega

/-- C5: `soft_delete()` sets `is_deleted = true` and `deleted_at` to the
current time and persists the record; `restore()` resets both fields and
persists. -/
theorem C5_soft_delete_restore_persist {α : Type} :
    ∀ (r : SDRecord α) (now : Nat) (db : List (SDRecord α)),
    ((r.soft_delete now db).1.is_deleted = true ∧
     (r.soft_delete now db).1.deleted_at = some now ∧
     (∀ v ∈ db, v.pk = r.pk →
       (r.soft_delete now db).1 ∈ (r.soft_delete now db).2)) ∧
    ((r.restore now db).1.is_deleted = false ∧
     (r.restore now db).1.deleted_at = none ∧
     (∀ v ∈ db, v.pk = r.pk →
       (r.restore now db).1 ∈ (r.restore now db).2)) := by
  intro r now db
  refine ⟨⟨rfl, rfl, ?_⟩, ⟨rfl, rfl, ?_⟩⟩
  · intro v hv hpk
    exact SDRecord.save_mem _ now db v hv hpk
  · intro v hv hpk
    exact SDRecord.save_mem _ now db v hv hpk

/-- C5 witness: the theorem applied to the sample record stored in a
one-row table at time 5. -/
theorem C5_soft_delete_restore_persist_witness :
    (sampleRec.soft_delete 5 [sampleRec]).1.is_deleted = true ∧
    (sampleRec.soft_delete 5 [sampleRec]).1 ∈
      (sampleRec.soft_delete 5 [sampleRec]).2 :=
  ⟨(C5_soft_delete_restore_persist sampleRec 5 [sampleRec]).1.1,
   (C5_soft_delete_restore_persist sampleRec 5 [sampleRec]).1.2.2
     sampleRec (by simp) rfl⟩

/-- C8: deletion by the mixin is a flag flip, not row removal: after
`soft_delete()` the table keeps its size and its primary keys, and the
record is marked `is_deleted`. -/
theorem C8_flag_flip_not_removal {α : Type} :
    ∀ (r : SDRecord α) (now : Nat) (db : List (SDRecord α)),
    ((r.soft_delete now db).2).length = db.length ∧
    ((r.soft_delete now db).2).map (fun v => v.pk) = db.map (fun v => v.pk) ∧
    (r.soft_delete now db).1.is_deleted = true := by
  intro r now db
  refine ⟨by simp [SDRecord.soft_delete, SDRecord.save], ?_, rfl⟩
  simp only [SDRecord.soft_delete, SDRecord.save, List.map_map]
  apply List.map_congr_left
  intro v _
  by_cases h : v.pk = r.pk <;> simp [h, Function.comp]

/-- C9: frame of `soft_delete()` and `restore()`: apart from
`is_deleted`, `deleted_at` and the `auto_now` column `updated_at`, every
field of the record (primary key, model fields, `created_at`,
`created_by`, `updated_by`) is unchanged. -/
theorem C9_soft_delete_restore_frame {α : Type} :
    ∀ (r : SDRecord α) (now : Nat) (db : List (SDRecord α)),
    ((r.soft_delete now db).1.pk = r.pk ∧
     (r.soft_delete now db).1.fields = r.fields ∧
     (r.soft_delete now db).1.created_at = r.created_at ∧
     (r.soft_delete now db).1.created_by = r.created_by ∧
     (r.soft_delete now db).1.updated_by = r.updated_by ∧
     (r.soft_delete now db).1.updated_at = some now) ∧
    ((r.restore now db).1.pk = r.pk ∧
     (r.restore now db).1.fields = r.fields ∧
     (r.restore now db).1.created_at = r.created_at ∧
     (r.restore now db).1.created_by = r.created_by ∧
     (r.restore now db).1.updated_by = r.updated_by ∧
     (r.restore now db).1.updated_at = some now) := by
  intro r now db
  exact ⟨⟨rfl, rfl, rfl, rfl, rfl, rfl⟩, ⟨rfl, rfl, rfl, rfl, rfl, rfl⟩⟩

/-- C6: the role helpers are string-equality predicates on `role`;
`is_superuser_role` compares against `"superuser"`, which is not among
the declared choices, so it is `false` for every user whose role is one
of the four declared choices. -/
theorem C6_role_helpers :
    (∀ u : User, u.is_admin_role = (u.role == "admin")) ∧
    (∀ u : User, u.is_teacher_role = (u.role == "teacher")) ∧
    (∀ u : User, u.is_student_role = (u.role == "student")) ∧
    (∀ u : User, u.is_superuser_role = (u.role == "superuser")) ∧
    "superuser" ∉ ROLE_CHOICES.map Prod.fst ∧
    (∀ u : User, u.role ∈ ROLE_CHOICES.map Prod.fst →
      u.is_superuser_role = false) := by
  refine ⟨fun _ => rfl, fun _ => rfl, fun _ => rfl, fun _ => rfl,
    by decide, ?_⟩
  intro u h
  simp only [ROLE_CHOICES, List.map, List.mem_cons, List.not_mem_nil,
    or_false] at h
  rcases h with h | h | h | h <;> simp [User.is_superuser_role, h]

/-- C6 witness: the theorem applied to the sample stored admin user,
whose role is among the declared choices. -/
theorem C6_role_helpers_witness :
    aliceStored.is_superuser_role = false :=
  C6_role_helpers.2.2.2.2.2 aliceStored (by decide)

/-- C7 counterexample: a `User` record does carry the soft-delete state
and operations (inherited through `BaseModel`): soft-deleting a stored
user flips its `is_deleted` flag and stamps `deleted_at`, contradicting
the claim that the model has neither the fields nor the methods. -/
theorem C7_counterexample :
    (User.soft_delete aliceStored 7 [aliceStored] [] 2).map
      (fun p => (p.1.is_deleted, p.1.deleted_at)) = some (true, some 7) ∧
    aliceStored.is_deleted = false ∧ aliceStored.deleted_at = none := by
  decide

/-- C7 amended: `User` inherits `BaseModel`, which includes the
soft-delete mixin, so a stored user has `is_deleted` / `deleted_at`
state and working `soft_delete()` / `restore()` operations. -/
theorem C7_user_has_soft_delete :
    ∀ (u : User) (now : Nat) (db : List User) (rolls : List Nat)
      (pk0 k : Nat), u.pk = some k →
    (∃ u' db', User.soft_delete u now db rolls pk0 = some (u', db') ∧
      u'.is_deleted = true ∧ u'.deleted_at = some now) ∧
    (∃ u'' db'', User.restore u db rolls pk0 = some (u'', db'') ∧
      u''.is_deleted = false ∧ u''.deleted_at = none) := by
  intro u now db rolls pk0 k h
  constructor
  · exact ⟨{ u with is_deleted := true, deleted_at := some now },
      db.map (fun v => if v.pk = u.pk then
        { u with is_deleted := true, deleted_at := some now } else v),
      by simp [User.soft_delete, User.save, h], rfl, rfl⟩
  · exact ⟨{ u with is_deleted := false, deleted_at := none },
      db.map (fun v => if v.pk = u.pk then
        { u with is_deleted := false, deleted_at := none } else v),
      by simp [User.restore, User.save, h], rfl, rfl⟩

/-- C7 witness: the amended theorem applied to the sample stored user. -/
theorem C7_user_has_soft_delete_witness :
    (∃ u' db', User.soft_delete aliceStored 7 [] [] 2 = some (u', db') ∧
      u'.is_deleted = true ∧ u'.deleted_at = some 7) ∧
    (∃ u'' db'', User.restore aliceStored [] [] 2 = some (u'', db'') ∧
      u''.is_deleted = false ∧ u''.deleted_at = none) :=
  C7_user_has_soft_delete aliceStored 7 [] [] 2 1 rfl

/-- C2: saving a user that already has a primary key never touches
`employee_id` or `student_id`: the saved instance and every stored row
with that key keep the identifiers they had. -/
theorem C2_update_preserves_ids :
    ∀ (u : User) (db : List User) (rolls : List Nat) (pk0 k : Nat)
      (out : User × List User), u.pk = some k →
    User.save u db rolls pk0 = some out →
    out.1.employee_id = u.employee_id ∧ out.1.student_id = u.student_id ∧
    ∀ v ∈ out.2, v.pk = u.pk →
      v.employee_id = u.employee_id ∧ v.student_id = u.student_id := by
  intro u db rolls pk0 k out h hsave
  simp only [User.save, h] at hsave
  cases hsave
  refine ⟨rfl, rfl, ?_⟩
  intro v hv hpk
  rcases List.mem_map.mp hv with ⟨w, hw, hwv⟩
  by_cases hc : w.pk = some k
  · rw [if_pos hc] at hwv
    rw [← hwv]
    exact ⟨rfl, rfl⟩
  · rw [if_neg hc] at hwv
    rw [← hwv] at hpk
    exact absurd (hpk.trans h) hc

/-- C2 witness: updating the stored sample user leaves both identifiers
unchanged. -/
theorem C2_update_preserves_ids_witness :
    (aliceStored, ([] : List User)).1.employee_id = aliceStored.employee_id ∧
    (aliceStored, ([] : List User)).1.student_id = aliceStored.student_id ∧
    ∀ v ∈ (aliceStored, ([] : List User)).2, v.pk = aliceStored.pk →
      v.employee_id = aliceStored.employee_id ∧
      v.student_id = aliceStored.student_id :=
  C2_update_preserves_ids aliceStored [] [] 5 1 (aliceStored, []) rfl rfl

/-- Bounds of the modelled `random.randint`. -/
lemma randint_mem (lo hi r : Nat) (h : lo ≤ hi) :
    lo ≤ randint lo hi r ∧ randint lo hi r ≤ hi := by
  unfold randint
  have h2 : r % (hi + 1 - lo) < hi + 1 - lo := Nat.mod_lt _ (by omega)
  omega

/-- Every identifier returned by `generate_employee_id` is `"EMP"`
followed by a number in `[10000, 99999]`, and collides with no existing
row's `employee_id`. -/
lemma generate_employee_id_spec (db : List User) :
    ∀ (rolls : List Nat) (s : String),
    User.generate_employee_id db rolls = some s →
    (∃ n, 10000 ≤ n ∧ n ≤ 99999 ∧ s = "EMP" ++ Nat.repr n) ∧
    ∀ v ∈ db, v.employee_id ≠ some s := by
  intro rolls
  induction rolls with
  | nil => intro s h; simp [User.generate_employee_id] at h
  | cons r rs ih =>
    intro s h
    simp only [User.generate_employee_id] at h
    split at h
    · exact ih s h
    · rename_i hany
      cases h
      refine ⟨⟨randint 10000 99999 r, (randint_mem 10000 99999 r (by omega)).1,
        (randint_mem 10000 99999 r (by omega)).2, rfl⟩, ?_⟩
      intro v hv hcontra
      apply hany
      refine List.any_eq_true.mpr ⟨v, hv, ?_⟩
      simp [hcontra]

/-- Every identifier returned by `generate_student_id` is `"STD"`
followed by a number in `[10000, 99999]`, and collides with no existing
row's `student_id`. -/
lemma generate_student_id_spec (db : List User) :
    ∀ (rolls : List Nat) (s : String),
    User.generate_student_id db rolls = some s →
    (∃ n, 10000 ≤ n ∧ n ≤ 99999 ∧ s = "STD" ++ Nat.repr n) ∧
    ∀ v ∈ db, v.student_id ≠ some s := by
  intro rolls
  induction rolls with
  | nil => intro s h; simp [User.generate_student_id] at h
  | cons r rs ih =>
    intro s h
    simp only [User.generate_student_id] at h
    split at h
    · exact ih s h
    · rename_i hany
      cases h
      refine ⟨⟨randint 10000 99999 r, (randint_mem 10000 99999 r (by omega)).1,
        (randint_mem 10000 99999 r (by omega)).2, rfl⟩, ?_⟩
      intro v hv hcontra
      apply hany
      refine List.any_eq_true.mpr ⟨v, hv, ?_⟩
      simp [hcontra]

/-- Unfolding of `save` on a new user with an employee role and a blank
`employee_id`: a generated identifier is stored on the saved instance
and the row is appended to the table. -/
lemma save_new_emp (u : User) (db : List User) (rolls : List Nat)
    (pk0 : Nat) (u' : User) (db' : List User) (hpk : u.pk = none)
    (hrole : u.role ∈ empRoles) (hblank : blankOrNull u.employee_id = true)
    (hsave : User.save u db rolls pk0 = some (u', db')) :
    ∃ s, User.generate_employee_id db rolls = some s ∧
      u'.employee_id = some s ∧ db' = db ++ [u'] := by
  have hrole' : u.role ∈ ["superadmin", "admin", "teacher"] := by
    simpa [empRoles] using hrole
  simp only [User.save, hpk] at hsave
  rw [if_pos ⟨hrole', hblank⟩] at hsave
  cases hgen : User.generate_employee_id db rolls with
  | none => rw [hgen] at hsave; simp at hsave
  | some s =>
    rw [hgen] at hsave
    simp only [Option.map_some', Option.some.injEq, Prod.mk.injEq] at hsave
    obtain ⟨h1, h2⟩ := hsave
    subst h1
    subst h2
    exact ⟨s, rfl, rfl, rfl⟩

/-- Unfolding of `save` on a new student with a blank `student_id`. -/
lemma save_new_std (u : User) (db : List User) (rolls : List Nat)
    (pk0 : Nat) (u' : User) (db' : List User) (hpk : u.pk = none)
    (hrole : u.role = "student") (hblank : blankOrNull u.student_id = true)
    (hsave : User.save u db rolls pk0 = some (u', db')) :
    ∃ s, User.generate_student_id db rolls = some s ∧
      u'.student_id = some s ∧ db' = db ++ [u'] := by
  have hrole' : ¬ (u.role ∈ ["superadmin", "admin", "teacher"] ∧
      blankOrNull u.employee_id = true) := by
    simp [hrole]
  simp only [User.save, hpk] at hsave
  rw [if_neg hrole', if_pos ⟨hrole, hblank⟩] at hsave
  cases hgen : User.generate_student_id db rolls with
  | none => rw [hgen] at hsave; simp at hsave
  | some s =>
    rw [hgen] at hsave
    simp only [Option.map_some', Option.some.injEq, Prod.mk.injEq] at hsave
    obtain ⟨h1, h2⟩ := hsave
    subst h1
    subst h2
    exact ⟨s, rfl, rfl, rfl⟩

/-- Invariant of sequential creation of employee-role users: every
created row carries an `employee_id`, none of them collides with the
starting table, and they are pairwise distinct. -/
lemma createUsers_emp :
    ∀ (inputs : List (User × List Nat)) (db created dbF : List User),
    (∀ p ∈ inputs, p.1.pk = none ∧ p.1.role ∈ empRoles ∧
      blankOrNull p.1.employee_id = true) →
    createUsers db inputs = some (created, dbF) →
    created.length = inputs.length ∧
    (∀ c ∈ created, ∃ s, c.employee_id = some s) ∧
    (∀ c ∈ created, ∀ v ∈ db, v.employee_id ≠ c.employee_id) ∧
    List.Pairwise (fun a b => a.employee_id ≠ b.employee_id) created := by
  intro inputs
  induction inputs with
  | nil =>
    intro db created dbF _ hrun
    simp only [createUsers, Option.some.injEq, Prod.mk.injEq] at hrun
    obtain ⟨h1, _⟩ := hrun
    subst h1
    simp
  | cons p rest ih =>
    obtain ⟨u, rolls⟩ := p
    intro db created dbF hall hrun
    obtain ⟨hpk, hrole, hblank⟩ := hall (u, rolls) (List.mem_cons_self _ _)
    simp only [createUsers] at hrun
    split at hrun
    · exact absurd hrun (by simp)
    · rename_i u' db' hsave
      split at hrun
      · exact absurd hrun (by simp)
      · rename_i us dbF' hrest
        simp only [Option.some.injEq, Prod.mk.injEq] at hrun
        obtain ⟨hcreated, _⟩ := hrun
        subst hcreated
        obtain ⟨s, hgen, hid, hdb'⟩ :=
          save_new_emp u db rolls db.length u' db' hpk hrole hblank hsave
        have hfresh := (generate_employee_id_spec db rolls s hgen).2
        obtain ⟨hlen, hsome, hfreshrest, hpw⟩ := ih db' us dbF'
          (fun q hq => hall q (List.mem_cons_of_mem _ hq)) hrest
        subst hdb'
        refine ⟨by simp [hlen], ?_, ?_, ?_⟩
        · intro c hc
          rcases List.mem_cons.mp hc with h | h
          · subst h; exact ⟨s, hid⟩
          · exact hsome c h
        · intro c hc v hv
          rcases List.mem_cons.mp hc with h | h
          · subst h; rw [hid]; exact hfresh v hv
          · exact hfreshrest c h v (List.mem_append_left _ hv)
        · exact List.Pairwise.cons
            (fun c hc => hfreshrest c hc u' (by simp)) hpw

/-- Invariant of sequential creation of student users: mirror of
`createUsers_emp` for `student_id`. -/
lemma createUsers_std :
    ∀ (inputs : List (User × List Nat)) (db created dbF : List User),
    (∀ p ∈ inputs, p.1.pk = none ∧ p.1.role = "student" ∧
      blankOrNull p.1.student_id = true) →
    createUsers db inputs = some (created, dbF) →
    created.length = inputs.length ∧
    (∀ c ∈ created, ∃ s, c.student_id = some s) ∧
    (∀ c ∈ created, ∀ v ∈ db, v.student_id ≠ c.student_id) ∧
    List.Pairwise (fun a b => a.student_id ≠ b.student_id) created := by
  intro inputs
  induction inputs with
  | nil =>
    intro db created dbF _ hrun
    simp only [createUsers, Option.some.injEq, Prod.mk.injEq] at hrun
    obtain ⟨h1, _⟩ := hrun
    subst h1
    simp
  | cons p rest ih =>
    obtain ⟨u, rolls⟩ := p
    intro db created dbF hall hrun
    obtain ⟨hpk, hrole, hblank⟩ := hall (u, rolls) (List.mem_cons_self _ _)
    simp only [createUsers] at hrun
    split at hrun
    · exact absurd hrun (by simp)
    · rename_i u' db' hsave
      split at hrun
      · exact absurd hrun (by simp)
      · rename_i us dbF' hrest
        simp only [Option.some.injEq, Prod.mk.injEq] at hrun
        obtain ⟨hcreated, _⟩ := hrun
        subst hcreated
        obtain ⟨s, hgen, hid, hdb'⟩ :=
          save_new_std u db rolls db.length u' db' hpk hrole hblank hsave
        have hfresh := (generate_student_id_spec db rolls s hgen).2
        obtain ⟨hlen, hsome, hfreshrest, hpw⟩ := ih db' us dbF'
          (fun q hq => hall q (List.mem_cons_of_mem _ hq)) hrest
        subst hdb'
        refine ⟨by simp [hlen], ?_, ?_, ?_⟩
        · intro c hc
          rcases List.mem_cons.mp hc with h | h
          · subst h; exact ⟨s, hid⟩
          · exact hsome c h
        · intro c hc v hv
          rcases List.mem_cons.mp hc with h | h
          · subst h; rw [hid]; exact hfresh v hv
          · exact hfreshrest c h v (List.mem_append_left _ hv)
        · exact List.Pairwise.cons
            (fun c hc => hfreshrest c hc u' (by simp)) hpw

/-- C1: on first save, an employee-role user with a blank `employee_id`
(resp. a student with a blank `student_id`) is assigned `"EMP"` (resp.
`"STD"`) followed by a random 5-digit number that collides with no
existing row; consequently, creating N users of the same role yields N
pairwise-distinct identifiers. -/
theorem C1_identifier_generation :
    (∀ (u : User) (db : List User) (rolls : List Nat) (pk0 : Nat)
       (u' : User) (db' : List User),
      u.pk = none → u.role ∈ empRoles → blankOrNull u.employee_id = true →
      User.save u db rolls pk0 = some (u', db') →
      ∃ n, 10000 ≤ n ∧ n ≤ 99999 ∧
        u'.employee_id = some ("EMP" ++ Nat.repr n) ∧
        ∀ v ∈ db, v.employee_id ≠ u'.employee_id) ∧
    (∀ (u : User) (db : List User) (rolls : List Nat) (pk0 : Nat)
       (u' : User) (db' : List User),
      u.pk = none → u.role = "student" → blankOrNull u.student_id = true →
      User.save u db rolls pk0 = some (u', db') →
      ∃ n, 10000 ≤ n ∧ n ≤ 99999 ∧
        u'.student_id = some ("STD" ++ Nat.repr n) ∧
        ∀ v ∈ db, v.student_id ≠ u'.student_id) ∧
    (∀ (inputs : List (User × List Nat)) (db created dbF : List User),
      (∀ p ∈ inputs, p.1.pk = none ∧ p.1.role ∈ empRoles ∧
        blankOrNull p.1.employee_id = true) →
      createUsers db inputs = some (created, dbF) →
      created.length = inputs.length ∧
      List.Pairwise (fun a b => a.employee_id ≠ b.employee_id) created) ∧
    (∀ (inputs : List (User × List Nat)) (db created dbF : List User),
      (∀ p ∈ inputs, p.1.pk = none ∧ p.1.role = "student" ∧
        blankOrNull p.1.student_id = true) →
      createUsers db inputs = some (created, dbF) →
      created.length = inputs.length ∧
      List.Pairwise (fun a b => a.student_id ≠ b.student_id) created) := by
  refine ⟨?_, ?_, ?_, ?_⟩
  · intro u db rolls pk0 u' db' hpk hrole hblank hsave
    obtain ⟨s, hgen, hid, _⟩ :=
      save_new_emp u db rolls pk0 u' db' hpk hrole hblank hsave
    obtain ⟨⟨n, hn1, hn2, hs⟩, hfresh⟩ :=
      generate_employee_id_spec db rolls s hgen
    subst hs
    exact ⟨n, hn1, hn2, hid, fun v hv => hid ▸ hfresh v hv⟩
  · intro u db rolls pk0 u' db' hpk hrole hblank hsave
    obtain ⟨s, hgen, hid, _⟩ :=
      save_new_std u db rolls pk0 u' db' hpk hrole hblank hsave
    obtain ⟨⟨n, hn1, hn2, hs⟩, hfresh⟩ :=
      generate_student_id_spec db rolls s hgen
    subst hs
    exact ⟨n, hn1, hn2, hid, fun v hv => hid ▸ hfresh v hv⟩
  · intro inputs db created dbF hall hrun
    obtain ⟨hlen, _, _, hpw⟩ := createUsers_emp inputs db created dbF hall hrun
    exact ⟨hlen, hpw⟩
  · intro inputs db created dbF hall hrun
    obtain ⟨hlen, _, _, hpw⟩ := createUsers_std inputs db created dbF hall hrun
    exact ⟨hlen, hpw⟩

/-- C1 witness: the first conjunct applied to a fresh admin saved
against an empty table with the single draw `3`. -/
theorem C1_identifier_generation_witness :
    ∃ n, 10000 ≤ n ∧ n ≤ 99999 ∧
      aliceSaved.employee_id = some ("EMP" ++ Nat.repr n) ∧
      ∀ v ∈ ([] : List User), v.employee_id ≠ aliceSaved.employee_id :=
  C1_identifier_generation.1 aliceNew [] [3] 1 aliceSaved [aliceSaved]
    rfl (by decide) rfl (by decide)

/-- Exact output length of `Nat.toDigitsCore`: a number with `e + 1`
digits in base `b` contributes exactly `e + 1` characters. -/
lemma toDigitsCore_len_exact (b : Nat) (hb : 1 < b) :
    ∀ (e fuel n : Nat) (ds : List Char), b ^ e ≤ n → n < b ^ (e + 1) →
    e < fuel → (Nat.toDigitsCore b fuel n ds).length = e + 1 + ds.length := by
  intro e
  induction e with
  | zero =>
    intro fuel n ds h1 h2 hf
    cases fuel with
    | zero => omega
    | succ fuel =>
      have hdiv : n / b = 0 := Nat.div_eq_of_lt (by simpa using h2)
      simp [Nat.toDigitsCore, hdiv]
      omega
  | succ e ih =>
    intro fuel n ds h1 h2 hf
    cases fuel with
    | zero => omega
    | succ fuel =>
      have hb0 : 0 < b := by omega
      have h1' : b ^ e ≤ n / b := by
        rw [Nat.le_div_iff_mul_le hb0]
        calc b ^ e * b = b ^ (e + 1) := (pow_succ b e).symm
          _ ≤ n := h1
      have h2' : n / b < b ^ (e + 1) := by
        apply Nat.div_lt_of_lt_mul
        calc n < b ^ (e + 1 + 1) := h2
          _ = b * b ^ (e + 1) := by ring
      have hne : ¬ n / b = 0 := by
        have hp : 0 < b ^ e := pow_pos hb0 e
        omega
      have hrec := ih fuel (n / b) (Nat.digitChar (n % b) :: ds) h1' h2'
        (Nat.lt_of_succ_lt_succ hf)
      simp only [Nat.toDigitsCore]
      rw [if_neg hne, hrec]
      simp
      omega

/-- Decimal representation of a five-digit number has five characters. -/
lemma repr_length_five (n : Nat) (h1 : 10000 ≤ n) (h2 : n ≤ 99999) :
    (Nat.repr n).length = 5 := by
  have hA : 10 ^ 4 ≤ n := by
    calc (10 : Nat) ^ 4 = 10000 := by norm_num
      _ ≤ n := h1
  have hB : n < 10 ^ (4 + 1) := by
    calc n ≤ 99999 := h2
      _ < 10 ^ 5 := by norm_num
  have h := toDigitsCore_len_exact 10 (by norm_num) 4 (n + 1) n [] hA hB
    (by omega)
  simp only [Nat.repr, Nat.toDigits, List.length_asString]
  rw [h]
  rfl

/-- C10: every identifier returned by the generators is the marker
(`"EMP"` / `"STD"`) followed by a number in `[10000, 99999]`, hence has
exactly 8 characters and fits the 20-character column. -/
theorem C10_identifier_shape :
    ∀ (db : List User) (rolls : List Nat) (s : String),
    (User.generate_employee_id db rolls = some s →
      ∃ n, 10000 ≤ n ∧ n ≤ 99999 ∧ s = "EMP" ++ Nat.repr n ∧
        s.length = 8 ∧ s.length ≤ 20) ∧
    (User.generate_student_id db rolls = some s →
      ∃ n, 10000 ≤ n ∧ n ≤ 99999 ∧ s = "STD" ++ Nat.repr n ∧
        s.length = 8 ∧ s.length ≤ 20) := by
  intro db rolls s
  constructor
  · intro h
    obtain ⟨⟨n, hn1, hn2, hs⟩, _⟩ := generate_employee_id_spec db rolls s h
    have hlen : s.length = 8 := by
      rw [hs, String.length_append, repr_length_five n hn1 hn2]
      rfl
    exact ⟨n, hn1, hn2, hs, hlen, by omega⟩
  · intro h
    obtain ⟨⟨n, hn1, hn2, hs⟩, _⟩ := generate_student_id_spec db rolls s h
    have hlen : s.length = 8 := by
      rw [hs, String.length_append, repr_length_five n hn1 hn2]
      rfl
    exact ⟨n, hn1, hn2, hs, hlen, by omega⟩

/-- C10 witness: the employee conjunct applied to the identifier rolled
from the draw `3` against an empty table. -/
theorem C10_identifier_shape_witness :
    ∃ n, 10000 ≤ n ∧ n ≤ 99999 ∧ "EMP10003" = "EMP" ++ Nat.repr n ∧
      ("EMP10003" : String).length = 8 ∧
      ("EMP10003" : String).length ≤ 20 :=
  (C10_identifier_shape [] [3] "EMP10003").1 (by decide)

end Cms
